import Mathlib

/-!
Verification of the remote job lifecycle monitor of `openeotest.py`
(`run_task` together with its helper `_save_results`).

The embedding is a shallow, executable interpreter of `run_task`.  Every
call into the outside world (filesystem, the openeo client library, the
backend) is resolved by an `Env` value that fixes, for each call, whether
it returns normally or raises, and how long it takes.  The wall clock is
threaded explicitly through the interpreter as a rational number of
seconds; a statement of the Python source that performs no external call
is modelled as instantaneous, and — following the spec's
BackendConnection contract, where `pollStatus` is a single non-blocking
read — a status poll itself takes no time (only the sleeps between polls
advance the clock inside the polling loop).

`run_task` returns, besides the `results` dictionary it produces (or the
message of an exception that escapes it), the ordered list of snapshots
handed to `_save_results` — i.e. the writes of `results.json` — and the
outcome of the polling loop when the loop was reached.  The polling loop
is modelled with explicit fuel; exhaustion of fuel yields `none`, and a
separate theorem shows a fixed fuel of 722 suffices for every
environment.
-/

namespace OpenEOTest

/-- Outcome of one call into the outside world (one Python expression that
may raise): either a normal result or an exception carrying its message. -/
inductive StepResult (α : Type) where
  | ok (a : α)
  | exn (msg : String)
deriving DecidableEq

/-- Environment of one `run_task` invocation: the outcome of every external
call the function performs, in source order, and the duration (seconds, as
a rational) of each phase.  `polls` gives the outcome of the n-th call to
`job.status()` counted from 0. -/
structure Env where
  apiUrl : String
  scenarioName : String
  /-- `os.makedirs(output_directory, exist_ok=True)` (line 228). -/
  mkdirs : StepResult Unit
  /-- `shutil.copyfile(scenario_path, process_graph_file)` (line 234). -/
  copyDef : StepResult Unit
  /-- `open(scenario_path)` + `json.load` (lines 263-264). -/
  loadGraph : StepResult Unit
  /-- `openeo.connect(api_url)` (line 276 or 281). -/
  connect : StepResult Unit
  /-- `connection.authenticate_basic(...)` on the Earth Engine branch (line 277). -/
  authBasic : StepResult Unit
  /-- `connection.authenticate_oidc()` (line 286). -/
  authOidc : StepResult Unit
  /-- `connection.create_job(process_graph)` (line 306); returns the job id. -/
  createJob : StepResult String
  /-- `job.start()` (line 319). -/
  startJob : StepResult Unit
  /-- the n-th `job.status()` call (line 339). -/
  polls : ℕ → StepResult String
  /-- `job.get_results()` + `get_metadata()` (lines 400-403). -/
  getResults : StepResult Unit
  /-- `job_results.download_files(output_directory)` (line 414). -/
  download : StepResult Unit
  /-- `job.describe_job()` for failed jobs (line 435). -/
  describeJob : StepResult Unit
  dLoad : ℚ
  dConnect : ℚ
  dAuth : ℚ
  dCreate : ℚ
  dStart : ℚ
  dGetResults : ℚ
  dDownload : ℚ
  dDescribe : ℚ

/-- All phase durations are non-negative (time moves forward). -/
def Env.wf (env : Env) : Prop :=
  0 ≤ env.dLoad ∧ 0 ≤ env.dConnect ∧ 0 ≤ env.dAuth ∧ 0 ≤ env.dCreate ∧
    0 ≤ env.dStart ∧ 0 ≤ env.dGetResults ∧ 0 ≤ env.dDownload ∧ 0 ≤ env.dDescribe

/-- The backend URL given special-cased basic authentication (line 275). -/
def eeUrl : String := "https://earthengine.openeo.org/v1.0"

/-- The `results` dictionary of `run_task` (lines 237-257), with the fields
it accumulates later.  Clock readings (`start_time`, `timestamp`,
`start_job_time`, the status-history values) are wall-clock instants;
the `*_time` fields other than `start_time`/`start_job_time` are durations. -/
structure RunResults where
  backend_url : String
  backend_name : String
  process_graph : String
  status : String
  job_id : Option String
  job_status : Option String
  start_time : ℚ
  submit_time : Option ℚ
  start_job_time : Option ℚ
  job_execution_time : Option ℚ
  download_time : Option ℚ
  total_time : Option ℚ
  queue_time : Option ℚ
  processing_time : Option ℚ
  file_path : Option String
  error : Option String
  job_status_history : List (String × ℚ)
  timestamp : ℚ
  download_timestamp : Option ℚ
  downloads_directory : Option String
  job_details : Bool
deriving DecidableEq

/-- Initial `results` dictionary (lines 237-256): `status` starts as
`"failed"`, every timing field except `start_time` starts absent. -/
def initResults (env : Env) (t0 : ℚ) : RunResults :=
  { backend_url := env.apiUrl
    backend_name := env.apiUrl
    process_graph := env.scenarioName
    status := "failed"
    job_id := none
    job_status := none
    start_time := t0
    submit_time := none
    start_job_time := none
    job_execution_time := none
    download_time := none
    total_time := none
    queue_time := none
    processing_time := none
    file_path := none
    error := none
    job_status_history := []
    timestamp := t0
    download_timestamp := none
    downloads_directory := none
    job_details := false }

/-- Python dict assignment `d[k] = v` on an insertion-ordered dictionary:
if the key is present its value is updated in place (keeping its
position), otherwise the pair is appended. -/
def dictInsert (k : String) (v : ℚ) : List (String × ℚ) → List (String × ℚ)
  | [] => [(k, v)]
  | p :: rest => if p.1 = k then (k, v) :: rest else p :: dictInsert k v rest

/-- `current_status in ["finished", "error", "canceled"]` (line 357). -/
def isTerminal (s : String) : Bool :=
  s = "finished" || s = "error" || s = "canceled"

/-- How the polling loop was exited: the timeout check at the top of the
loop (lines 331-335), a terminal status (lines 357-358), or the timeout
re-check after a failed status call (lines 366-368). -/
inductive LoopExit where
  | timeout
  | terminal
  | pollFailTimeout
deriving DecidableEq

/-- State of the polling loop (lines 322-327): current clock, current
poll interval, `last_status`, `status_times`, `results["job_status"]`,
the number of `job.status()` calls attempted so far, plus two histories
kept for the verification: the successful status observations with their
times, and the durations of executed sleeps. -/
structure LoopState where
  t : ℚ
  interval : ℚ
  lastStatus : String
  statusTimes : List (String × ℚ)
  jobStatus : Option String
  attempts : ℕ
  events : List (String × ℚ)
  sleeps : List ℚ
deriving DecidableEq

/-- Result of the polling loop: exit route, clock at exit, final
`results["job_status"]`, the value the loop assigned to
`results["error"]` (if any), `status_times`, and the two histories. -/
structure LoopOut where
  exit : LoopExit
  t : ℚ
  jobStatus : Option String
  error : Option String
  statusTimes : List (String × ℚ)
  events : List (String × ℚ)
  sleeps : List ℚ
deriving DecidableEq

/-- `f"Job timed out after {timeout} seconds"` with `timeout = 3600` (line 332). -/
def timeoutMsg : String := "Job timed out after 3600 seconds"

/-- Loop state on entry (lines 322-327): interval 5, `last_status`
`"submitted"`, `status_times = {"submitted": job_start_datetime}` where
`job_start_datetime` is taken before `job.start()` (`tsub`), while the
first iteration runs after `job.start()` returns (`tstart`). -/
def initLoopState (tsub tstart : ℚ) : LoopState :=
  { t := tstart
    interval := 5
    lastStatus := "submitted"
    statusTimes := [("submitted", tsub)]
    jobStatus := none
    attempts := 0
    events := []
    sleeps := [] }

/-- The `while True` polling loop (lines 329-369).  `t0` is
`job_start_time`, the deadline base.  Each iteration: timeout check;
`job.status()`; on success record the status if it differs from
`last_status`, exit on a terminal status, otherwise grow the interval by
×1.5 capped at 30 and sleep it; on a raised status call, re-check the
deadline and, when not expired, sleep the current interval unchanged.
Fuel exhaustion yields `none`. -/
def pollLoop (env : Env) (t0 : ℚ) : ℕ → LoopState → Option LoopOut
  | 0, st =>
    if 3600 < st.t - t0 then
      some { exit := .timeout, t := st.t, jobStatus := st.jobStatus,
             error := some timeoutMsg, statusTimes := st.statusTimes,
             events := st.events, sleeps := st.sleeps }
    else none
  | fuel' + 1, st =>
    if 3600 < st.t - t0 then
      some { exit := .timeout, t := st.t, jobStatus := st.jobStatus,
             error := some timeoutMsg, statusTimes := st.statusTimes,
             events := st.events, sleeps := st.sleeps }
    else
      match env.polls st.attempts with
        | .ok s =>
          let statusTimes :=
            if s ≠ st.lastStatus then dictInsert s st.t st.statusTimes else st.statusTimes
          let lastStatus := if s ≠ st.lastStatus then s else st.lastStatus
          let events := st.events ++ [(s, st.t)]
          if isTerminal s then
            some { exit := .terminal, t := st.t, jobStatus := some s,
                   error := none, statusTimes := statusTimes,
                   events := events, sleeps := st.sleeps }
          else
            let interval := min (st.interval * (3/2)) 30
            pollLoop env t0 fuel'
              { t := st.t + interval, interval := interval, lastStatus := lastStatus,
                statusTimes := statusTimes, jobStatus := some s,
                attempts := st.attempts + 1, events := events,
                sleeps := st.sleeps ++ [interval] }
        | .exn m =>
          if 3600 < st.t - t0 then
            some { exit := .pollFailTimeout, t := st.t, jobStatus := st.jobStatus,
                   error := some ("Job status checking failed: " ++ m),
                   statusTimes := st.statusTimes, events := st.events,
                   sleeps := st.sleeps }
          else
            pollLoop env t0 fuel'
              { st with t := st.t + st.interval, attempts := st.attempts + 1,
                        sleeps := st.sleeps ++ [st.interval] }

/-- Python `str` of an optional string, as interpolated by an f-string
(`None` prints as `"None"`). -/
def pyStr : Option String → String
  | none => "None"
  | some s => s

instance {ε α : Type} [DecidableEq ε] [DecidableEq α] : DecidableEq (Except ε α)
  | .error x, .error y =>
    if h : x = y then .isTrue (by subst h; rfl)
    else .isFalse (by intro hc; injection hc; contradiction)
  | .error _, .ok _ => .isFalse (fun hc => Except.noConfusion hc)
  | .ok _, .error _ => .isFalse (fun hc => Except.noConfusion hc)
  | .ok x, .ok y =>
    if h : x = y then .isTrue (by subst h; rfl)
    else .isFalse (by intro hc; injection hc; contradiction)

/-- What one `run_task` invocation did: the value it returned (or the
message of an exception that escaped it), the snapshots written to
`results.json` by `_save_results` in order, and the polling-loop outcome
when the loop was reached. -/
structure RunOutput where
  ret : Except String RunResults
  saves : List RunResults
  loop : Option LoopOut
deriving DecidableEq

/-- The `finally` block (lines 446-458): set `total_time` and `timestamp`,
save once, return `results`. -/
def finishRun (t0 tEnd : ℚ) (r : RunResults) (lo : Option LoopOut) : RunOutput :=
  { ret := .ok { r with total_time := some (tEnd - t0), timestamp := tEnd }
    saves := [{ r with total_time := some (tEnd - t0), timestamp := tEnd }]
    loop := lo }

/-- `results` after `create_job` returned `jid` (lines 306-315): `job_id`,
`submit_time` (a duration) and `start_job_time` (an absolute clock
reading, `tjs`). -/
def submitRecord (env : Env) (r0 : RunResults) (jid : String) (tjs : ℚ) : RunResults :=
  { r0 with job_id := some jid, submit_time := some env.dCreate,
            start_job_time := some tjs }

/-- `results` right after the polling loop (lines 371-386):
`job_execution_time`, `job_status`, the loop's `error` assignment if any,
the status history, and the derived queue/processing times, each computed
only when both of its boundary statuses are present. -/
def postLoopRecord (r1 : RunResults) (tjs : ℚ) (lo : LoopOut) : RunResults :=
  { r1 with
    job_execution_time := some (lo.t - tjs)
    job_status := lo.jobStatus
    error := (match lo.error with | some m => some m | none => r1.error)
    job_status_history := lo.statusTimes
    queue_time :=
      (match List.lookup "queued" lo.statusTimes,
             List.lookup "running" lo.statusTimes with
       | some tq, some tr => some (tr - tq)
       | _, _ => none)
    processing_time :=
      (match List.lookup "running" lo.statusTimes,
             List.lookup "finished" lo.statusTimes with
       | some tr, some tf => some (tf - tr)
       | _, _ => none) }

/-- The batch-job `try/except/finally` (lines 301-458).  `tA` is the clock
after authentication succeeded.  Any exception raised by `create_job`,
`start`, `get_results`/`get_metadata` or `download_files` is caught at
line 441, which sets `status = "failed"` and `error = str(e)`; all routes
converge on `finishRun`. -/
def runJob (env : Env) (fuel : ℕ) (t0 tA : ℚ) (r0 : RunResults) : Option RunOutput :=
  match env.createJob with
  | .exn m =>
    some (finishRun t0 (tA + env.dCreate)
      { r0 with status := "failed", error := some m } none)
  | .ok jid =>
    match env.startJob with
    | .exn m =>
      some (finishRun t0 (tA + env.dCreate + env.dStart)
        { submitRecord env r0 jid (tA + env.dCreate) with
          status := "failed", error := some m } none)
    | .ok _ =>
      match pollLoop env (tA + env.dCreate) fuel
          (initLoopState (tA + env.dCreate) (tA + env.dCreate + env.dStart)) with
      | none => none
      | some lo =>
        if lo.jobStatus = some "finished" then
          match env.getResults with
          | .exn m =>
            some (finishRun t0 (lo.t + env.dGetResults)
              { postLoopRecord (submitRecord env r0 jid (tA + env.dCreate))
                  (tA + env.dCreate) lo with
                status := "failed", error := some m } (some lo))
          | .ok _ =>
            match env.download with
            | .exn m =>
              some (finishRun t0 (lo.t + env.dGetResults + env.dDownload)
                { postLoopRecord (submitRecord env r0 jid (tA + env.dCreate))
                    (tA + env.dCreate) lo with
                  status := "failed", error := some m } (some lo))
            | .ok _ =>
              some (finishRun t0 (lo.t + env.dGetResults + env.dDownload)
                { postLoopRecord (submitRecord env r0 jid (tA + env.dCreate))
                    (tA + env.dCreate) lo with
                  download_time := some (env.dGetResults + env.dDownload),
                  status := "success",
                  download_timestamp := some lo.t,
                  downloads_directory := some "output" } (some lo))
        else
          some (finishRun t0 (lo.t + env.dDescribe)
            { postLoopRecord (submitRecord env r0 jid (tA + env.dCreate))
                (tA + env.dCreate) lo with
              status := "failed",
              error := some ("Job ended with status: " ++ pyStr lo.jobStatus),
              job_details :=
                (match env.describeJob with | .ok _ => true | .exn _ => false) }
            (some lo))

/-- `run_task(api_url, scenario_path, output_directory)` (lines 214-458).
`t0` is the wall clock at entry.  Directory creation and the job-definition
copy run before the `results` dictionary exists and outside every `try`,
so an exception there escapes with nothing saved; a failure to load the
process graph, to connect, or to authenticate saves the current record and
returns it (lines 261-298); everything later goes through `runJob`. -/
def run_task (env : Env) (fuel : ℕ) (t0 : ℚ) : Option RunOutput :=
  match env.mkdirs with
  | .exn m => some { ret := .error m, saves := [], loop := none }
  | .ok _ =>
  match env.copyDef with
  | .exn m => some { ret := .error m, saves := [], loop := none }
  | .ok _ =>
  let r0 := initResults env t0
  match env.loadGraph with
  | .exn m =>
    let r := { r0 with error := some ("Failed to load process graph: " ++ m) }
    some { ret := .ok r, saves := [r], loop := none }
  | .ok _ =>
  if env.apiUrl = eeUrl then
    match env.connect with
    | .exn m =>
      let r := { r0 with error := some ("Failed to connect to backend: " ++ m) }
      some { ret := .ok r, saves := [r], loop := none }
    | .ok _ =>
      match env.authBasic with
      | .exn m =>
        let r := { r0 with error := some ("Failed to connect to backend: " ++ m) }
        some { ret := .ok r, saves := [r], loop := none }
      | .ok _ => runJob env fuel t0 (t0 + env.dLoad + env.dConnect + env.dAuth) r0
  else
    match env.connect with
    | .exn m =>
      let r := { r0 with error := some ("Failed to connect to backend: " ++ m) }
      some { ret := .ok r, saves := [r], loop := none }
    | .ok _ =>
      match env.authOidc with
      | .exn m =>
        let r := { r0 with error := some ("Authentication failed: " ++ m) }
        some { ret := .ok r, saves := [r], loop := none }
      | .ok _ => runJob env fuel t0 (t0 + env.dLoad + env.dConnect + env.dAuth) r0

/-- The successful status observations among the first `n` poll attempts,
preceded by the initial `"submitted"` entry — the observation log the
status history is built from. -/
def obs (env : Env) : ℕ → List String
  | 0 => ["submitted"]
  | n + 1 => obs env n ++ (match env.polls n with | .ok s => [s] | .exn _ => [])

/-- Every successful poll either repeats the immediately preceding
observation or reports a status never observed before. -/
def FreshOrSame (env : Env) : Prop :=
  ∀ n s, env.polls n = .ok s → (obs env n).getLast? = some s ∨ s ∉ obs env n

/-- Every poll attempt returns a status (none raises). -/
def pollsOk (env : Env) : Prop :=
  ∀ n, ∃ s, env.polls n = .ok s

/-! ### Invariants of the polling loop -/

lemma interval_update_ge5 {i : ℚ} (h : 5 ≤ i) : 5 ≤ min (i * (3 / 2)) 30 := by
  refine le_min (by linarith) (by norm_num)

lemma interval_update_le30 (i : ℚ) : min (i * (3 / 2)) 30 ≤ 30 := min_le_right _ _

/-- Fuel `722` always suffices: each iteration that does not exit advances
the clock by at least 5 seconds, and the deadline check exits once the
clock has passed `t0 + 3600`. -/
lemma pollLoop_total (env : Env) (t0 : ℚ) :
    ∀ (fuel : ℕ) (st : LoopState), 5 ≤ st.interval →
      3600 < st.t - t0 + 5 * (fuel : ℚ) → ∃ lo, pollLoop env t0 fuel st = some lo := by
  intro fuel
  induction fuel with
  | zero =>
    intro st _ hf
    rw [pollLoop]
    simp only [Nat.cast_zero, mul_zero, add_zero] at hf
    rw [if_pos hf]
    exact ⟨_, rfl⟩
  | succ n ih =>
    intro st h5 hf
    rw [pollLoop]
    split
    · exact ⟨_, rfl⟩
    · cases hp : env.polls st.attempts with
      | ok s =>
        try dsimp only
        split
        · exact ⟨_, rfl⟩
        · refine ih _ (interval_update_ge5 h5) ?_
          have h5' := interval_update_ge5 (i := st.interval) h5
          push_cast at hf ⊢
          try dsimp only
          linarith
      | exn m =>
        refine ih _ h5 ?_
        push_cast at hf ⊢
        try dsimp only
        linarith

/-- The clock at loop exit never passes `t0 + 3630` (unless it already had
on entry): the deadline is checked before each poll and each sleep is at
most `maxPollInterval = 30` seconds. -/
lemma pollLoop_exit_le (env : Env) (t0 : ℚ) :
    ∀ (fuel : ℕ) (st : LoopState) (lo : LoopOut),
      pollLoop env t0 fuel st = some lo → st.interval ≤ 30 →
      lo.t ≤ max st.t (t0 + 3630) := by
  intro fuel
  induction fuel with
  | zero =>
    intro st lo h _
    rw [pollLoop] at h
    split at h
    · cases h
      exact le_max_left _ _
    · cases h
  | succ n ih =>
    intro st lo h h30
    rw [pollLoop] at h
    split at h
    · cases h
      exact le_max_left _ _
    · rename_i hnot
      have hle : st.t ≤ t0 + 3600 := by linarith [not_lt.mp hnot]
      cases hp : env.polls st.attempts with
      | ok s =>
        simp only [hp] at h
        split at h
        · cases h
          exact le_max_left _ _
        · have hrec := ih _ _ h (interval_update_le30 _)
          have hstep : st.t + min (st.interval * (3 / 2)) 30 ≤ t0 + 3630 := by
            have := interval_update_le30 st.interval
            linarith
          calc lo.t ≤ max (st.t + min (st.interval * (3 / 2)) 30) (t0 + 3630) := hrec
            _ ≤ t0 + 3630 := max_le hstep le_rfl
            _ ≤ max st.t (t0 + 3630) := le_max_right _ _
      | exn m =>
        simp only [hp] at h
        have hrec := ih _ _ h h30
        have hstep : st.t + st.interval ≤ t0 + 3630 := by linarith
        calc lo.t ≤ max (st.t + st.interval) (t0 + 3630) := hrec
          _ ≤ t0 + 3630 := max_le hstep le_rfl
          _ ≤ max st.t (t0 + 3630) := le_max_right _ _

/-- The clock never moves backwards across the loop. -/
lemma pollLoop_t_mono (env : Env) (t0 : ℚ) :
    ∀ (fuel : ℕ) (st : LoopState) (lo : LoopOut),
      pollLoop env t0 fuel st = some lo → 0 ≤ st.interval → st.t ≤ lo.t := by
  intro fuel
  induction fuel with
  | zero =>
    intro st lo h _
    rw [pollLoop] at h
    split at h
    · cases h; exact le_rfl
    · cases h
  | succ n ih =>
    intro st lo h h0
    rw [pollLoop] at h
    split at h
    · cases h; exact le_rfl
    · cases hp : env.polls st.attempts with
      | ok s =>
        simp only [hp] at h
        split at h
        · cases h; exact le_rfl
        · have h0' : (0 : ℚ) ≤ min (st.interval * (3 / 2)) 30 :=
            le_min (by linarith) (by norm_num)
          have hrec := ih _ _ h h0'
          dsimp only at hrec
          linarith
      | exn m =>
        simp only [hp] at h
        have hrec := ih _ _ h h0
        dsimp only at hrec
        linarith

/-! ### Association-list lemmas for the status history -/

lemma lookup_cons (k k' : String) (v : ℚ) (l : List (String × ℚ)) :
    List.lookup k ((k', v) :: l) = if k = k' then some v else List.lookup k l := by
  by_cases h : k = k'
  · subst h
    simp [List.lookup]
  · simp [List.lookup, beq_eq_false_iff_ne.mpr h, h]

lemma lookup_append (k : String) (l₁ l₂ : List (String × ℚ)) :
    List.lookup k (l₁ ++ l₂) = (List.lookup k l₁).or (List.lookup k l₂) := by
  induction l₁ with
  | nil => simp [List.lookup]
  | cons p l ih =>
    obtain ⟨a, b⟩ := p
    by_cases h : k = a <;> simp [lookup_cons, h, ih]

lemma lookup_eq_none_iff (k : String) (l : List (String × ℚ)) :
    List.lookup k l = none ↔ k ∉ l.map Prod.fst := by
  induction l with
  | nil => simp [List.lookup]
  | cons p l ih =>
    obtain ⟨a, b⟩ := p
    by_cases h : k = a <;> simp [lookup_cons, h, ih]

lemma lookup_isSome_iff (k : String) (l : List (String × ℚ)) :
    (List.lookup k l).isSome ↔ k ∈ l.map Prod.fst := by
  rw [← not_iff_not, Option.not_isSome_iff_eq_none, lookup_eq_none_iff]

lemma dictInsert_of_not_mem {k : String} {l : List (String × ℚ)}
    (h : k ∉ l.map Prod.fst) (v : ℚ) : dictInsert k v l = l ++ [(k, v)] := by
  induction l with
  | nil => rfl
  | cons p l ih =>
    obtain ⟨a, b⟩ := p
    simp only [List.map_cons, List.mem_cons, not_or] at h
    rw [dictInsert, if_neg (fun hc => h.1 hc.symm), ih h.2, List.cons_append]

lemma mem_map_fst_dictInsert (k x : String) (v : ℚ) (l : List (String × ℚ)) :
    x ∈ (dictInsert k v l).map Prod.fst ↔ x = k ∨ x ∈ l.map Prod.fst := by
  induction l with
  | nil => simp [dictInsert]
  | cons p rest ih =>
    obtain ⟨a, b⟩ := p
    by_cases h : a = k
    · subst h
      rw [dictInsert, if_pos rfl]
      simp
    · rw [dictInsert, if_neg h]
      simp only [List.map_cons, List.mem_cons, ih]
      tauto

/-- Python-dict assignment never duplicates a key: `dictInsert` preserves
uniqueness of the keys, for every insertion. -/
lemma dictInsert_keys_nodup (k : String) (v : ℚ) (l : List (String × ℚ))
    (h : (l.map Prod.fst).Nodup) : ((dictInsert k v l).map Prod.fst).Nodup := by
  induction l with
  | nil => simp [dictInsert]
  | cons p rest ih =>
    obtain ⟨a, b⟩ := p
    simp only [List.map_cons, List.nodup_cons] at h
    by_cases hak : a = k
    · subst hak
      rw [dictInsert, if_pos rfl]
      simp only [List.map_cons, List.nodup_cons]
      exact ⟨h.1, h.2⟩
    · rw [dictInsert, if_neg hak]
      simp only [List.map_cons, List.nodup_cons]
      refine ⟨?_, ih h.2⟩
      intro hmem
      rcases (mem_map_fst_dictInsert k a v rest).mp hmem with h1 | h2
      · exact hak h1
      · exact h.1 h2

lemma getLast?_concat' (l : List String) (a : String) : (l ++ [a]).getLast? = some a := by
  induction l with
  | nil => rfl
  | cons x xs ih =>
    rw [List.cons_append, List.getLast?_cons, ih]
    cases xs <;> simp_all

/-! ### The status-history invariant of the polling loop -/

/-- `obs env (n+1)` when the n-th poll succeeds. -/
lemma obs_succ_ok {env : Env} {n : ℕ} {s : String} (hp : env.polls n = .ok s) :
    obs env (n + 1) = obs env n ++ [s] := by
  rw [obs, hp]

/-- `obs env (n+1)` when the n-th poll raises. -/
lemma obs_succ_exn {env : Env} {n : ℕ} {m : String} (hp : env.polls n = .exn m) :
    obs env (n + 1) = obs env n := by
  rw [obs, hp]
  simp

/-- Invariant tying the loop state to the observation log: the log so far,
the role of `last_status`, and the three properties of the history (unique
keys, non-decreasing timestamps, values = first observations). -/
structure HistInv (env : Env) (tsub : ℚ) (st : LoopState) : Prop where
  hobs : "submitted" :: st.events.map Prod.fst = obs env st.attempts
  hlast : (obs env st.attempts).getLast? = some st.lastStatus
  hnodup : (st.statusTimes.map Prod.fst).Nodup
  hlookup : ∀ x, List.lookup x st.statusTimes = List.lookup x (("submitted", tsub) :: st.events)
  hchain : List.Chain' (· ≤ ·) (st.statusTimes.map Prod.snd)
  hle : ∀ p ∈ st.statusTimes, p.2 ≤ st.t
  hint : 0 ≤ st.interval

lemma mem_of_getLast?_eq {α : Type} {l : List α} {x : α} (h : l.getLast? = some x) :
    x ∈ l := by
  have hx : x ∈ l.getLast? := by simp [h]
  obtain ⟨hne, hxx⟩ := List.mem_getLast?_eq_getLast hx
  rw [hxx]
  exact List.getLast_mem hne

/-- One successful poll preserves the history invariant, provided the
polled status either repeats the previous observation or is fresh. -/
lemma hist_step {env : Env} {tsub : ℚ} {st : LoopState} {s : String}
    (hfs : FreshOrSame env) (hp : env.polls st.attempts = .ok s)
    (inv : HistInv env tsub st) :
    "submitted" :: (st.events ++ [(s, st.t)]).map Prod.fst = obs env (st.attempts + 1)
    ∧ (obs env (st.attempts + 1)).getLast? =
        some (if s ≠ st.lastStatus then s else st.lastStatus)
    ∧ ((if s ≠ st.lastStatus then dictInsert s st.t st.statusTimes
        else st.statusTimes).map Prod.fst).Nodup
    ∧ (∀ x, List.lookup x (if s ≠ st.lastStatus then dictInsert s st.t st.statusTimes
            else st.statusTimes)
          = List.lookup x (("submitted", tsub) :: (st.events ++ [(s, st.t)])))
    ∧ List.Chain' (· ≤ ·) ((if s ≠ st.lastStatus then dictInsert s st.t st.statusTimes
        else st.statusTimes).map Prod.snd)
    ∧ (∀ p ∈ (if s ≠ st.lastStatus then dictInsert s st.t st.statusTimes
        else st.statusTimes), p.2 ≤ st.t) := by
  have hobs1 : obs env (st.attempts + 1) = obs env st.attempts ++ [s] := obs_succ_ok hp
  have hpart1 : "submitted" :: (st.events ++ [(s, st.t)]).map Prod.fst
      = obs env (st.attempts + 1) := by
    rw [hobs1, ← inv.hobs]
    simp
  have hsplit : ("submitted", tsub) :: (st.events ++ [(s, st.t)])
      = (("submitted", tsub) :: st.events) ++ [(s, st.t)] := by simp
  by_cases hs : s = st.lastStatus
  · -- repeat of the previous observation: the history is left unchanged
    have hif : (s ≠ st.lastStatus) = False := by simp [hs]
    refine ⟨hpart1, ?_, ?_, ?_, ?_, ?_⟩ <;> simp only [hif, if_false, ite_false]
    · rw [hobs1, getLast?_concat', hs]
    · exact inv.hnodup
    · intro x
      rw [inv.hlookup x, hsplit, lookup_append]
      by_cases hx : x = s
      · subst hx
        have hlm : st.lastStatus ∈ obs env st.attempts := mem_of_getLast?_eq inv.hlast
        rw [← inv.hobs] at hlm
        have hmem : x ∈ (("submitted", tsub) :: st.events).map Prod.fst := by
          rw [hs]
          simpa using hlm
        obtain ⟨v, hv⟩ := Option.isSome_iff_exists.mp ((lookup_isSome_iff _ _).mpr hmem)
        rw [hv]
        simp
      · have hnone : List.lookup x [(s, st.t)] = none := by
          rw [lookup_cons, if_neg hx]
          rfl
        rw [hnone]
        simp
    · exact inv.hchain
    · exact inv.hle
  · -- fresh status: appended to the history
    have hfresh : s ∉ obs env st.attempts := by
      rcases hfs st.attempts s hp with hl | hf
      · rw [inv.hlast] at hl
        exact absurd (Option.some.inj hl).symm hs
      · exact hf
    have hknotin : s ∉ (("submitted", tsub) :: st.events).map Prod.fst := by
      rw [← inv.hobs] at hfresh
      simpa using hfresh
    have hstnotin : s ∉ st.statusTimes.map Prod.fst := by
      have := (lookup_eq_none_iff s (("submitted", tsub) :: st.events)).mpr hknotin
      rw [← inv.hlookup s] at this
      exact (lookup_eq_none_iff s st.statusTimes).mp this
    have hins : dictInsert s st.t st.statusTimes = st.statusTimes ++ [(s, st.t)] :=
      dictInsert_of_not_mem hstnotin st.t
    have hif : (s ≠ st.lastStatus) = True := by simp [hs]
    refine ⟨hpart1, ?_, ?_, ?_, ?_, ?_⟩ <;>
      simp only [hif, if_true, ite_true, hins]
    · rw [hobs1, getLast?_concat']
    · rw [List.map_append, List.nodup_append]
      refine ⟨inv.hnodup, by simp, ?_⟩
      intro x hx
      simp only [List.map_cons, List.map_nil, List.mem_singleton]
      intro hxs
      exact hstnotin (hxs ▸ hx)
    · intro x
      rw [hsplit, lookup_append, lookup_append, inv.hlookup x]
    · rw [List.map_append, List.chain'_append]
      refine ⟨inv.hchain, by simp, ?_⟩
      intro x hx y hy
      simp only [List.map_cons, List.map_nil, List.head?_cons, Option.mem_some_iff] at hy
      have hxmem : x ∈ st.statusTimes.map Prod.snd := by
        exact List.mem_of_mem_getLast? hx
      obtain ⟨p, hpmem, hpx⟩ := List.mem_map.mp hxmem
      rw [← hy, ← hpx]
      exact inv.hle p hpmem
    · intro p hp'
      rcases List.mem_append.mp hp' with hmem | hmem
      · exact inv.hle p hmem
      · simp only [List.mem_singleton] at hmem
        rw [hmem]

/-- Main history lemma: when every poll is fresh-or-same, the final status
history has unique keys, non-decreasing timestamps in insertion order, and
maps every status to the time of its first observation (the first matching
entry of the observation log). -/
lemma pollLoop_hist (env : Env) (tsub : ℚ) (hfs : FreshOrSame env) :
    ∀ (fuel : ℕ) (st : LoopState) (lo : LoopOut),
      pollLoop env tsub fuel st = some lo → HistInv env tsub st →
      (lo.statusTimes.map Prod.fst).Nodup
      ∧ List.Chain' (· ≤ ·) (lo.statusTimes.map Prod.snd)
      ∧ ∀ x, List.lookup x lo.statusTimes
            = List.lookup x (("submitted", tsub) :: lo.events) := by
  intro fuel
  induction fuel with
  | zero =>
    intro st lo h inv
    rw [pollLoop] at h
    split at h
    · cases h
      exact ⟨inv.hnodup, inv.hchain, inv.hlookup⟩
    · cases h
  | succ n ih =>
    intro st lo h inv
    rw [pollLoop] at h
    split at h
    · cases h
      exact ⟨inv.hnodup, inv.hchain, inv.hlookup⟩
    · cases hp : env.polls st.attempts with
      | ok s =>
        simp only [hp] at h
        obtain ⟨h1, h2, h3, h4, h5, h6⟩ := hist_step hfs hp inv
        have hmin0 : (0 : ℚ) ≤ min (st.interval * (3 / 2)) 30 :=
          le_min (by nlinarith [inv.hint]) (by norm_num)
        split at h
        · cases h
          exact ⟨h3, h5, h4⟩
        · refine ih _ _ h ?_
          exact { hobs := h1, hlast := h2, hnodup := h3, hlookup := h4,
                  hchain := h5,
                  hle := fun p hpm => by
                    show p.2 ≤ st.t + min (st.interval * (3 / 2)) 30
                    have := h6 p hpm
                    linarith,
                  hint := hmin0 }
      | exn m =>
        simp only [hp] at h
        refine ih _ _ h ?_
        exact { hobs := by rw [obs_succ_exn hp]; exact inv.hobs
                hlast := by rw [obs_succ_exn hp]; exact inv.hlast
                hnodup := inv.hnodup
                hlookup := inv.hlookup
                hchain := inv.hchain
                hle := fun p hpm => by
                  show p.2 ≤ st.t + st.interval
                  have h1 : p ∈ st.statusTimes := hpm
                  have := inv.hle p h1
                  have := inv.hint
                  linarith
                hint := inv.hint }

/-- Unconditional key-uniqueness: whatever statuses the backend reports —
revisits included — the status history never holds a key twice, because
each recording is a Python-dict assignment (`dictInsert`). -/
lemma pollLoop_keys_nodup (env : Env) (t0 : ℚ) :
    ∀ (fuel : ℕ) (st : LoopState) (lo : LoopOut),
      pollLoop env t0 fuel st = some lo →
      (st.statusTimes.map Prod.fst).Nodup →
      (lo.statusTimes.map Prod.fst).Nodup := by
  intro fuel
  induction fuel with
  | zero =>
    intro st lo h hnd
    rw [pollLoop] at h
    split at h
    · cases h
      exact hnd
    · cases h
  | succ n ih =>
    intro st lo h hnd
    have hstep : ∀ s, (((if s ≠ st.lastStatus then dictInsert s st.t st.statusTimes
        else st.statusTimes) : List (String × ℚ)).map Prod.fst).Nodup := by
      intro s
      split
      · exact dictInsert_keys_nodup s st.t st.statusTimes hnd
      · exact hnd
    rw [pollLoop] at h
    split at h
    · cases h
      exact hnd
    · cases hp : env.polls st.attempts with
      | ok s =>
        simp only [hp] at h
        split at h
        · cases h
          exact hstep s
        · exact ih _ _ h (hstep s)
      | exn m =>
        simp only [hp] at h
        exact ih _ _ h hnd

/-! ### The backoff schedule of the polling loop -/

/-- Value of `poll_interval` after `n` updates by
`poll_interval = min(poll_interval * 1.5, max_poll_interval)` from the
initial 5 seconds. -/
def sleepSeq (n : ℕ) : ℚ := min (5 * (3 / 2) ^ n) 30

lemma sleepSeq_succ (k : ℕ) : min (sleepSeq k * (3 / 2)) 30 = sleepSeq (k + 1) := by
  unfold sleepSeq
  rcases le_total (5 * (3 / 2 : ℚ) ^ k) 30 with h | h
  · rw [min_eq_left h]
    congr 1
    rw [pow_succ]
    ring
  · have hk1 : (30 : ℚ) ≤ 5 * (3 / 2) ^ (k + 1) := by
      rw [pow_succ]
      nlinarith
    rw [min_eq_right h, min_eq_right hk1,
      min_eq_right (by norm_num : (30 : ℚ) ≤ 30 * (3 / 2))]

/-- When no poll raises, the interval is updated before each sleep, so the
sleeps executed are exactly `sleepSeq 1, sleepSeq 2, …` in order. -/
lemma pollLoop_sleeps (env : Env) (t0 : ℚ) (hok : pollsOk env) :
    ∀ (fuel : ℕ) (st : LoopState) (lo : LoopOut),
      pollLoop env t0 fuel st = some lo →
      st.interval = sleepSeq st.sleeps.length →
      st.sleeps = (List.range st.sleeps.length).map (fun i => sleepSeq (i + 1)) →
      lo.sleeps = (List.range lo.sleeps.length).map (fun i => sleepSeq (i + 1)) := by
  intro fuel
  induction fuel with
  | zero =>
    intro st lo h _ hsl
    rw [pollLoop] at h
    split at h
    · cases h
      exact hsl
    · cases h
  | succ n ih =>
    intro st lo h hint hsl
    rw [pollLoop] at h
    split at h
    · cases h
      exact hsl
    · cases hp : env.polls st.attempts with
      | ok s =>
        simp only [hp] at h
        split at h
        · cases h
          exact hsl
        · refine ih _ _ h ?_ ?_
          · show min (st.interval * (3 / 2)) 30
              = sleepSeq (st.sleeps ++ [min (st.interval * (3 / 2)) 30]).length
            rw [hint, sleepSeq_succ]
            simp
          · show st.sleeps ++ [min (st.interval * (3 / 2)) 30]
              = (List.range (st.sleeps ++ [min (st.interval * (3 / 2)) 30]).length).map
                  (fun i => sleepSeq (i + 1))
            rw [hint, sleepSeq_succ]
            simp only [List.length_append, List.length_singleton]
            rw [List.range_succ, List.map_append]
            rw [hsl]
            simp
      | exn m =>
        obtain ⟨s, hs⟩ := hok st.attempts
        rw [hs] at hp
        cases hp

/-! ### Exhaustive path analysis of `run_task` -/

/-- Output of the early-failure paths (lines 261-298): the record is saved
once and returned; the loop never ran. -/
def earlySave (r : RunResults) : RunOutput :=
  { ret := .ok r, saves := [r], loop := none }

/-- The run got past authentication (lines 261-298 all succeeded). -/
def authPassed (env : Env) : Prop :=
  env.mkdirs = .ok () ∧ env.copyDef = .ok () ∧ env.loadGraph = .ok () ∧
    env.connect = .ok () ∧
    ((env.apiUrl = eeUrl ∧ env.authBasic = .ok ()) ∨
      (env.apiUrl ≠ eeUrl ∧ env.authOidc = .ok ()))

/-- Every invocation of `run_task` takes one of five routes: an escaped
exception from directory setup, an early save-and-return on load, connect
or authentication failure, or the batch-job phase. -/
lemma run_task_cases (env : Env) (fuel : ℕ) (t0 : ℚ) (out : RunOutput)
    (h : run_task env fuel t0 = some out) :
    (∃ m, (env.mkdirs = .exn m ∨ env.copyDef = .exn m)
        ∧ out = { ret := .error m, saves := [], loop := none })
    ∨ (∃ m, env.loadGraph = .exn m
        ∧ out = earlySave { initResults env t0 with
            error := some ("Failed to load process graph: " ++ m) })
    ∨ (∃ m, (env.connect = .exn m ∨ (env.apiUrl = eeUrl ∧ env.authBasic = .exn m))
        ∧ out = earlySave { initResults env t0 with
            error := some ("Failed to connect to backend: " ++ m) })
    ∨ (∃ m, env.apiUrl ≠ eeUrl ∧ env.authOidc = .exn m
        ∧ out = earlySave { initResults env t0 with
            error := some ("Authentication failed: " ++ m) })
    ∨ (authPassed env
        ∧ runJob env fuel t0 (t0 + env.dLoad + env.dConnect + env.dAuth)
            (initResults env t0) = some out) := by
  unfold run_task at h
  cases hmk : env.mkdirs with
  | exn m =>
    rw [hmk] at h
    exact Or.inl ⟨m, Or.inl rfl, (Option.some.inj h).symm⟩
  | ok u =>
    cases u
    rw [hmk] at h
    cases hcp : env.copyDef with
    | exn m =>
      rw [hcp] at h
      exact Or.inl ⟨m, Or.inr rfl, (Option.some.inj h).symm⟩
    | ok u =>
      cases u
      rw [hcp] at h
      cases hlg : env.loadGraph with
      | exn m =>
        rw [hlg] at h
        exact Or.inr (Or.inl ⟨m, rfl, (Option.some.inj h).symm⟩)
      | ok u =>
        cases u
        rw [hlg] at h
        dsimp only at h
        by_cases hee : env.apiUrl = eeUrl
        · rw [if_pos hee] at h
          cases hc : env.connect with
          | exn m =>
            rw [hc] at h
            exact Or.inr (Or.inr (Or.inl ⟨m, Or.inl rfl, (Option.some.inj h).symm⟩))
          | ok u =>
            cases u
            rw [hc] at h
            cases hab : env.authBasic with
            | exn m =>
              rw [hab] at h
              exact Or.inr (Or.inr (Or.inl
                ⟨m, Or.inr ⟨hee, rfl⟩, (Option.some.inj h).symm⟩))
            | ok u =>
              cases u
              rw [hab] at h
              exact Or.inr (Or.inr (Or.inr (Or.inr
                ⟨⟨hmk, hcp, hlg, hc, Or.inl ⟨hee, hab⟩⟩, h⟩)))
        · rw [if_neg hee] at h
          cases hc : env.connect with
          | exn m =>
            rw [hc] at h
            exact Or.inr (Or.inr (Or.inl ⟨m, Or.inl rfl, (Option.some.inj h).symm⟩))
          | ok u =>
            cases u
            rw [hc] at h
            cases hao : env.authOidc with
            | exn m =>
              rw [hao] at h
              exact Or.inr (Or.inr (Or.inr (Or.inl
                ⟨m, hee, rfl, (Option.some.inj h).symm⟩)))
            | ok u =>
              cases u
              rw [hao] at h
              exact Or.inr (Or.inr (Or.inr (Or.inr
                ⟨⟨hmk, hcp, hlg, hc, Or.inr ⟨hee, hao⟩⟩, h⟩)))

/-- Every completed run of the batch-job phase falls into one of the
routes of the `try/except/finally`: submit failure, start failure, or a
loop exit followed by either the download branch or the
job-ended-with-status branch. -/
lemma runJob_cases (env : Env) (fuel : ℕ) (t0 tA : ℚ) (r0 : RunResults) (out : RunOutput)
    (h : runJob env fuel t0 tA r0 = some out) :
    (∃ m, env.createJob = .exn m
        ∧ out = finishRun t0 (tA + env.dCreate)
            { r0 with status := "failed", error := some m } none)
    ∨ (∃ jid m, env.createJob = .ok jid ∧ env.startJob = .exn m
        ∧ out = finishRun t0 (tA + env.dCreate + env.dStart)
            { submitRecord env r0 jid (tA + env.dCreate) with
              status := "failed", error := some m } none)
    ∨ (∃ jid lo, env.createJob = .ok jid ∧ env.startJob = .ok ()
        ∧ pollLoop env (tA + env.dCreate) fuel
            (initLoopState (tA + env.dCreate) (tA + env.dCreate + env.dStart)) = some lo
        ∧ ((lo.jobStatus = some "finished"
            ∧ ((∃ m, env.getResults = .exn m
                  ∧ out = finishRun t0 (lo.t + env.dGetResults)
                      { postLoopRecord (submitRecord env r0 jid (tA + env.dCreate))
                          (tA + env.dCreate) lo with
                        status := "failed", error := some m } (some lo))
              ∨ (∃ m, env.getResults = .ok () ∧ env.download = .exn m
                  ∧ out = finishRun t0 (lo.t + env.dGetResults + env.dDownload)
                      { postLoopRecord (submitRecord env r0 jid (tA + env.dCreate))
                          (tA + env.dCreate) lo with
                        status := "failed", error := some m } (some lo))
              ∨ (env.getResults = .ok () ∧ env.download = .ok ()
                  ∧ out = finishRun t0 (lo.t + env.dGetResults + env.dDownload)
                      { postLoopRecord (submitRecord env r0 jid (tA + env.dCreate))
                          (tA + env.dCreate) lo with
                        download_time := some (env.dGetResults + env.dDownload),
                        status := "success",
                        download_timestamp := some lo.t,
                        downloads_directory := some "output" } (some lo))))
          ∨ (¬lo.jobStatus = some "finished"
              ∧ out = finishRun t0 (lo.t + env.dDescribe)
                  { postLoopRecord (submitRecord env r0 jid (tA + env.dCreate))
                      (tA + env.dCreate) lo with
                    status := "failed",
                    error := some ("Job ended with status: " ++ pyStr lo.jobStatus),
                    job_details := (match env.describeJob with
                                    | .ok _ => true | .exn _ => false) } (some lo)))) := by
  unfold runJob at h
  cases hcj : env.createJob with
  | exn m =>
    rw [hcj] at h
    exact Or.inl ⟨m, rfl, (Option.some.inj h).symm⟩
  | ok jid =>
    rw [hcj] at h
    cases hsj : env.startJob with
    | exn m =>
      rw [hsj] at h
      exact Or.inr (Or.inl ⟨jid, m, rfl, rfl, (Option.some.inj h).symm⟩)
    | ok u =>
      cases u
      rw [hsj] at h
      cases hloop : pollLoop env (tA + env.dCreate) fuel
          (initLoopState (tA + env.dCreate) (tA + env.dCreate + env.dStart)) with
      | none =>
        rw [hloop] at h
        dsimp only at h
        cases h
      | some lo =>
        rw [hloop] at h
        dsimp only at h
        refine Or.inr (Or.inr ⟨jid, lo, rfl, rfl, rfl, ?_⟩)
        by_cases hfin : lo.jobStatus = some "finished"
        · rw [if_pos hfin] at h
          refine Or.inl ⟨hfin, ?_⟩
          cases hgr : env.getResults with
          | exn m =>
            rw [hgr] at h
            exact Or.inl ⟨m, rfl, (Option.some.inj h).symm⟩
          | ok u =>
            cases u
            rw [hgr] at h
            cases hdl : env.download with
            | exn m =>
              rw [hdl] at h
              exact Or.inr (Or.inl ⟨m, rfl, rfl, (Option.some.inj h).symm⟩)
            | ok u =>
              cases u
              rw [hdl] at h
              exact Or.inr (Or.inr ⟨rfl, rfl, (Option.some.inj h).symm⟩)
        · rw [if_neg hfin] at h
          exact Or.inr ⟨hfin, (Option.some.inj h).symm⟩

/-- What the loop exit routes record: the top timeout check stores the
timeout message in `results["error"]`, and any non-terminal exit leaves
`results["job_status"]` at `None` or a non-terminal status (a terminal
status exits the loop at once, so it can never coexist with a timeout
exit). -/
lemma pollLoop_exit_spec (env : Env) (t0 : ℚ) :
    ∀ (fuel : ℕ) (st : LoopState) (lo : LoopOut),
      pollLoop env t0 fuel st = some lo →
      (st.jobStatus = none ∨ ∃ s, st.jobStatus = some s ∧ isTerminal s = false) →
      (lo.exit = .timeout → lo.error = some timeoutMsg)
      ∧ (lo.exit ≠ .terminal →
          (lo.jobStatus = none ∨ ∃ s, lo.jobStatus = some s ∧ isTerminal s = false)) := by
  intro fuel
  induction fuel with
  | zero =>
    intro st lo h hinv
    rw [pollLoop] at h
    split at h
    · cases h
      exact ⟨fun _ => rfl, fun _ => hinv⟩
    · cases h
  | succ n ih =>
    intro st lo h hinv
    rw [pollLoop] at h
    split at h
    · cases h
      exact ⟨fun _ => rfl, fun _ => hinv⟩
    · cases hp : env.polls st.attempts with
      | ok s =>
        simp only [hp] at h
        split at h
        · rename_i hterm
          cases h
          exact ⟨fun hc => LoopExit.noConfusion hc, fun hc => absurd rfl hc⟩
        · rename_i hterm
          refine ih _ _ h (Or.inr ⟨s, rfl, ?_⟩)
          simpa using hterm
      | exn m =>
        simp only [hp] at h
        exact ih _ _ h hinv

lemma earlySave_saves (r x : RunResults) : x ∈ (earlySave r).saves ↔ x = r := by
  simp [earlySave]

lemma finishRun_saves (t0 tEnd : ℚ) (rr : RunResults) (lo : Option LoopOut)
    (x : RunResults) :
    x ∈ (finishRun t0 tEnd rr lo).saves
      ↔ x = { rr with total_time := some (tEnd - t0), timestamp := tEnd } := by
  simp [finishRun]

/-- With fuel 722 and non-negative durations, `run_task` always completes
(the loop cannot consume more than 722 iterations before its deadline). -/
lemma run_task_total (env : Env) (t0 : ℚ) (hwf : env.wf) :
    ∃ out, run_task env 722 t0 = some out := by
  unfold run_task
  cases env.mkdirs with
  | exn m => exact ⟨_, rfl⟩
  | ok u =>
    cases env.copyDef with
    | exn m => exact ⟨_, rfl⟩
    | ok u =>
      cases env.loadGraph with
      | exn m => exact ⟨_, rfl⟩
      | ok u =>
        dsimp only
        have hjob : ∀ tA, ∃ out,
            runJob env 722 t0 tA (initResults env t0) = some out := by
          intro tA
          unfold runJob
          cases env.createJob with
          | exn m => exact ⟨_, rfl⟩
          | ok jid =>
            cases env.startJob with
            | exn m => exact ⟨_, rfl⟩
            | ok u =>
              obtain ⟨lo, hlo⟩ := pollLoop_total env (tA + env.dCreate) 722
                (initLoopState (tA + env.dCreate) (tA + env.dCreate + env.dStart))
                (by norm_num [initLoopState])
                (by
                  have h5 := hwf.2.2.2.2.1
                  push_cast
                  simp only [initLoopState]
                  linarith)
              rw [hlo]
              dsimp only
              split
              · cases env.getResults with
                | exn m => exact ⟨_, rfl⟩
                | ok u =>
                  cases env.download with
                  | exn m => exact ⟨_, rfl⟩
                  | ok u => exact ⟨_, rfl⟩
              · exact ⟨_, rfl⟩
        split
        · cases env.connect with
          | exn m => exact ⟨_, rfl⟩
          | ok u =>
            cases env.authBasic with
            | exn m => exact ⟨_, rfl⟩
            | ok u => exact hjob _
        · cases env.connect with
          | exn m => exact ⟨_, rfl⟩
          | ok u =>
            cases env.authOidc with
            | exn m => exact ⟨_, rfl⟩
            | ok u => exact hjob _

/-! ### Concrete environments used by witnesses and counterexamples -/

/-- A fully successful run: every step returns normally, the first poll
already reports `finished`. -/
def okEnv : Env :=
  { apiUrl := "https://example.org/v1"
    scenarioName := "ndvi"
    mkdirs := .ok ()
    copyDef := .ok ()
    loadGraph := .ok ()
    connect := .ok ()
    authBasic := .ok ()
    authOidc := .ok ()
    createJob := .ok "job-1"
    startJob := .ok ()
    polls := fun _ => .ok "finished"
    getResults := .ok ()
    download := .ok ()
    describeJob := .ok ()
    dLoad := 0
    dConnect := 0
    dAuth := 0
    dCreate := 1
    dStart := 0
    dGetResults := 2
    dDownload := 3
    dDescribe := 0 }

/-- The job-definition copy raises before the record exists. -/
def envCopyFail : Env := { okEnv with copyDef := .exn "copy failed" }

/-- The process graph cannot be loaded. -/
def envLoadFail : Env := { okEnv with loadGraph := .exn "scenario file missing" }

/-- OIDC authentication raises. -/
def envAuthFail : Env := { okEnv with authOidc := .exn "bad credentials" }

/-- The backend never reports a terminal status. -/
def envNeverDone : Env := { okEnv with polls := fun _ => .ok "running" }

/-- One non-terminal poll, then `finished`. -/
def envTwoPolls : Env :=
  { okEnv with polls := fun n => .ok (if n = 0 then "running" else "finished") }

/-- The backend reports `queued`, then revisits `submitted`, then finishes:
a status re-observed after an intervening different status. -/
def envRevisit : Env :=
  { okEnv with
    dCreate := 0
    polls := fun n =>
      .ok (if n = 0 then "queued" else if n = 1 then "submitted" else "finished") }

/-- The canonical `queued → running → finished` progression with all
durations zero. -/
def envQueueRun : Env :=
  { okEnv with
    dCreate := 0
    dGetResults := 0
    dDownload := 0
    polls := fun n =>
      .ok (if n = 0 then "queued" else if n = 1 then "running" else "finished") }

lemma freshOrSame_okEnv : FreshOrSame okEnv := by
  intro n s hp
  have hs : s = "finished" := (StepResult.ok.inj hp).symm
  subst hs
  cases n with
  | zero => exact Or.inr (by decide)
  | succ k =>
    refine Or.inl ?_
    rw [obs_succ_ok (rfl : okEnv.polls k = .ok "finished"), getLast?_concat']

lemma pollsOk_envTwoPolls : pollsOk envTwoPolls := by
  intro n
  exact ⟨_, rfl⟩

/-- Loop outcome of `okEnv` started at clock 0. -/
def loFin : LoopOut :=
  { exit := .terminal, t := 0, jobStatus := some "finished", error := none
    statusTimes := [("submitted", 0), ("finished", 0)]
    events := [("finished", 0)], sleeps := [] }

/-- Loop outcome of `envTwoPolls` started at clock 0. -/
def loC5 : LoopOut :=
  { exit := .terminal, t := 15 / 2, jobStatus := some "finished", error := none
    statusTimes := [("submitted", 0), ("running", 0), ("finished", 15 / 2)]
    events := [("running", 0), ("finished", 15 / 2)], sleeps := [15 / 2] }

/-- Loop outcome of `envQueueRun` started at clock 0. -/
def loQ : LoopOut :=
  { exit := .terminal, t := 75 / 4, jobStatus := some "finished", error := none
    statusTimes := [("submitted", 0), ("queued", 0), ("running", 15 / 2),
      ("finished", 75 / 4)]
    events := [("queued", 0), ("running", 15 / 2), ("finished", 75 / 4)]
    sleeps := [15 / 2, 45 / 4] }

/-- Record persisted by `run_task envQueueRun 722 0`. -/
def rQ : RunResults :=
  { backend_url := "https://example.org/v1"
    backend_name := "https://example.org/v1"
    process_graph := "ndvi"
    status := "success"
    job_id := some "job-1"
    job_status := some "finished"
    start_time := 0
    submit_time := some 0
    start_job_time := some 0
    job_execution_time := some (75 / 4)
    download_time := some 0
    total_time := some (75 / 4)
    queue_time := some (15 / 2)
    processing_time := some (45 / 4)
    file_path := none
    error := none
    job_status_history := [("submitted", 0), ("queued", 0), ("running", 15 / 2),
      ("finished", 75 / 4)]
    timestamp := 75 / 4
    download_timestamp := some (75 / 4)
    downloads_directory := some "output"
    job_details := false }

/-- Full output of `run_task envQueueRun 722 0`. -/
def outQ : RunOutput := { ret := .ok rQ, saves := [rQ], loop := some loQ }

/-! ### Claims -/

/-- **C8** (confirmed).  For every backend behaviour — including one that
never reports a terminal status and one whose polls keep raising — the
polling loop, as entered by `run_task` (deadline base `t0` =
`job_start_time`, first iteration at clock `tstart ≥ t0`), terminates and
exits within `timeout + maxPollInterval = 3600 + 30` seconds of the loop
start.  Polls are modelled as instantaneous, following the spec's
`BackendConnection` contract (`pollStatus` is a single non-blocking
read); only the sleeps advance the clock. -/
theorem C8_loop_exits_within_bound (env : Env) (t0 tstart : ℚ) (hle : t0 ≤ tstart) :
    ∃ lo, pollLoop env t0 722 (initLoopState t0 tstart) = some lo
      ∧ lo.t ≤ tstart + (3600 + 30) := by
  obtain ⟨lo, hlo⟩ := pollLoop_total env t0 722 (initLoopState t0 tstart)
    (by norm_num [initLoopState])
    (by
      push_cast
      simp only [initLoopState]
      linarith)
  refine ⟨lo, hlo, ?_⟩
  have hb := pollLoop_exit_le env t0 722 _ lo hlo (by norm_num [initLoopState])
  have hm : max (initLoopState t0 tstart).t (t0 + 3630) ≤ tstart + (3600 + 30) := by
    apply max_le
    · simp only [initLoopState]
      linarith
    · linarith
  exact le_trans hb hm

/-- Witness for C8 at a concrete input. -/
theorem C8_loop_exits_within_bound_witness :
    ∃ lo, pollLoop okEnv 0 722 (initLoopState 0 0) = some lo
      ∧ lo.t ≤ 0 + (3600 + 30) :=
  C8_loop_exits_within_bound okEnv 0 0 le_rfl

/-- **C5** is false as stated: the code updates the interval *before*
sleeping (`poll_interval = min(poll_interval * 1.5, max_poll_interval)` on
line 361 precedes `time.sleep(poll_interval)` on line 362), so the first
sleep lasts 7.5 s — not the claimed `min(5·1.5⁰, 30) = 5` s.  Concretely,
a run with one non-terminal poll sleeps `[15/2]`. -/
theorem C5_counterexample :
    (pollLoop envTwoPolls 0 722 (initLoopState 0 0)).map LoopOut.sleeps = some [15 / 2]
    ∧ min (5 * (3 / 2 : ℚ) ^ (1 - 1)) 30 = 5
    ∧ (15 / 2 : ℚ) ≠ 5 := by
  refine ⟨by with_unfolding_all rfl, by norm_num, by norm_num⟩

/-- **C5** (amended): on each iteration the poller first sets
`pollInterval = min(pollInterval × 1.5, maxPollInterval)` and then sleeps
for the updated interval, with `pollInterval` initially 5 s and
`maxPollInterval` 30 s; hence, when no poll raises, the n-th sleep
(0-indexed) lasts `min(5 × 1.5^(n+1), 30)` seconds, starting at 7.5 s. -/
theorem C5_sleep_schedule (env : Env) (tsub tstart : ℚ) (fuel : ℕ) (lo : LoopOut)
    (hok : pollsOk env)
    (hrun : pollLoop env tsub fuel (initLoopState tsub tstart) = some lo) :
    ∀ n, n < lo.sleeps.length →
      lo.sleeps[n]? = some (min (5 * (3 / 2) ^ (n + 1)) 30) := by
  have hmain := pollLoop_sleeps env tsub hok fuel (initLoopState tsub tstart) lo hrun
    (by
      show (5 : ℚ) = sleepSeq ([] : List ℚ).length
      norm_num [sleepSeq])
    (by simp [initLoopState])
  intro n hn
  rw [hmain] at hn ⊢
  simp only [List.length_map, List.length_range] at hn
  rw [List.getElem?_map, List.getElem?_range hn]
  simp [sleepSeq]

/-- Witness for the amended C5 at a concrete input. -/
theorem C5_sleep_schedule_witness :
    pollLoop envTwoPolls 0 722 (initLoopState 0 0) = some loC5
    ∧ loC5.sleeps[0]? = some (min (5 * (3 / 2) ^ (0 + 1)) 30) := by
  have h1 : pollLoop envTwoPolls 0 722 (initLoopState 0 0) = some loC5 := by
    with_unfolding_all rfl
  exact ⟨h1, C5_sleep_schedule envTwoPolls 0 0 722 loC5 pollsOk_envTwoPolls h1 0
    (by norm_num [loC5])⟩

/-- **C2** is false as stated: the loop records a status when it differs
from `last_status` (line 344), so a status re-observed after an
intervening different status *overwrites* its first-observation
timestamp.  With polls `queued, submitted, finished` from job-start time
0, the initial `submitted ↦ 0` entry is overwritten to `submitted ↦ 7.5`,
and the timestamps in insertion order `[7.5, 0, 18.75]` are not
non-decreasing. -/
theorem C2_counterexample :
    (pollLoop envRevisit 0 722 (initLoopState 0 0)).map LoopOut.statusTimes
      = some [("submitted", 15 / 2), ("queued", 0), ("finished", 75 / 4)]
    ∧ ¬List.Chain' (· ≤ ·) [(15 / 2 : ℚ), 0, 75 / 4]
    ∧ (15 / 2 : ℚ) ≠ 0 := by
  refine ⟨by with_unfolding_all rfl, ?_, by norm_num⟩
  intro h
  rcases List.chain'_cons.mp h with ⟨h1, _⟩
  norm_num at h1

/-- **C2** (amended): keys of the status history are always unique; and
provided every successful poll either repeats the immediately preceding
observation or reports a never-before-seen status, the history maps each
status name to the timestamp of its first observation (the first matching
entry of the observation log, whose head is the initial `submitted` at
job-start time) and its timestamps are non-decreasing in insertion order.
Re-observations of a status *after an intervening different status*
overwrite its timestamp (see the counterexample), which is the only
amendment. -/
theorem C2_history_invariants (env : Env) (tsub tstart : ℚ) (fuel : ℕ) (lo : LoopOut)
    (hrun : pollLoop env tsub fuel (initLoopState tsub tstart) = some lo) :
    (lo.statusTimes.map Prod.fst).Nodup
    ∧ (FreshOrSame env → tsub ≤ tstart →
        List.Chain' (· ≤ ·) (lo.statusTimes.map Prod.snd)
        ∧ ∀ x, List.lookup x lo.statusTimes
            = List.lookup x (("submitted", tsub) :: lo.events)) := by
  constructor
  · exact pollLoop_keys_nodup env tsub fuel _ lo hrun (by simp [initLoopState])
  · intro hfs hts
    have hmain := pollLoop_hist env tsub hfs fuel _ lo hrun ?_
    · exact ⟨hmain.2.1, hmain.2.2⟩
    refine { hobs := ?_, hlast := ?_, hnodup := ?_, hlookup := ?_, hchain := ?_,
             hle := ?_, hint := ?_ }
    · simp [initLoopState, obs]
    · simp [initLoopState, obs]
    · simp [initLoopState]
    · intro x
      simp [initLoopState]
    · simp [initLoopState]
    · intro p hp
      have hp' : p = ("submitted", tsub) := by
        simpa [initLoopState] using hp
      rw [hp']
      show tsub ≤ (initLoopState tsub tstart).t
      simpa [initLoopState] using hts
    · norm_num [initLoopState]

/-- Loop outcome of `envRevisit` started at clock 0: the revisit of
`submitted` overwrites its timestamp but the keys stay unique. -/
def loRev : LoopOut :=
  { exit := .terminal, t := 75 / 4, jobStatus := some "finished", error := none
    statusTimes := [("submitted", 15 / 2), ("queued", 0), ("finished", 75 / 4)]
    events := [("queued", 0), ("submitted", 15 / 2), ("finished", 75 / 4)]
    sleeps := [15 / 2, 45 / 4] }

/-- Witness for the amended C2 at two concrete inputs: the fresh-or-same
run `okEnv` (all conjuncts) and the revisit run `envRevisit`
(unconditional key-uniqueness). -/
theorem C2_history_invariants_witness :
    (pollLoop okEnv 0 722 (initLoopState 0 0) = some loFin
      ∧ ((loFin.statusTimes.map Prod.fst).Nodup
        ∧ (FreshOrSame okEnv → (0 : ℚ) ≤ 0 →
            List.Chain' (· ≤ ·) (loFin.statusTimes.map Prod.snd)
            ∧ ∀ x, List.lookup x loFin.statusTimes
                = List.lookup x (("submitted", 0) :: loFin.events))))
    ∧ (pollLoop envRevisit 0 722 (initLoopState 0 0) = some loRev
      ∧ (loRev.statusTimes.map Prod.fst).Nodup) := by
  have h1 : pollLoop okEnv 0 722 (initLoopState 0 0) = some loFin := by
    with_unfolding_all rfl
  have h2 : pollLoop envRevisit 0 722 (initLoopState 0 0) = some loRev := by
    with_unfolding_all rfl
  exact ⟨⟨h1, C2_history_invariants okEnv 0 0 722 loFin h1⟩,
    h2, (C2_history_invariants envRevisit 0 0 722 loRev h2).1⟩

/-- **C1** is false as stated: `os.makedirs` and `shutil.copyfile`
(lines 228-234) run before the `results` dictionary exists and outside
every `try`, so an exception raised there escapes `run_task` with *zero*
writes of `results.json` — an exit route by an uncaught exception from a
step on which no run record is persisted. -/
theorem C1_counterexample :
    run_task envCopyFail 722 0
      = some { ret := .error "copy failed", saves := [], loop := none } := rfl

/-- **C1** (amended): once the output directory is created and the job
definition copied (the two statements preceding the initialization of the
record), every invocation persists the run record exactly once — success,
remote failure, timeout, and exceptions caught by the batch-job handler
all converge on a single write of `results.json`, and the persisted
record is the one returned. -/
theorem C1_persist_exactly_once (env : Env) (t0 : ℚ)
    (hmk : env.mkdirs = .ok ()) (hcp : env.copyDef = .ok ()) (hwf : env.wf) :
    ∃ out r, run_task env 722 t0 = some out ∧ out.saves = [r] ∧ out.ret = .ok r := by
  obtain ⟨out, hout⟩ := run_task_total env t0 hwf
  refine ⟨out, ?_⟩
  rcases run_task_cases env 722 t0 out hout with
    ⟨m, hstep, hval⟩ | ⟨m, hstep, hval⟩ | ⟨m, hstep, hval⟩ | ⟨m, hne, hstep, hval⟩ |
    ⟨hap, hjob⟩
  · rcases hstep with hstep | hstep
    · rw [hmk] at hstep
      cases hstep
    · rw [hcp] at hstep
      cases hstep
  · subst hval
    exact ⟨_, hout, rfl, rfl⟩
  · subst hval
    exact ⟨_, hout, rfl, rfl⟩
  · subst hval
    exact ⟨_, hout, rfl, rfl⟩
  · rcases runJob_cases env 722 t0 _ _ out hjob with
      ⟨m, hcj, hval⟩ | ⟨jid, m, hcj, hsj, hval⟩ | ⟨jid, lo, hcj, hsj, hloop, hrest⟩
    · subst hval
      exact ⟨_, hout, rfl, rfl⟩
    · subst hval
      exact ⟨_, hout, rfl, rfl⟩
    · rcases hrest with ⟨hfin, ⟨m, hgr, hval⟩ | ⟨m, hgr, hdl, hval⟩ | ⟨hgr, hdl, hval⟩⟩ |
        ⟨hfin, hval⟩ <;> subst hval <;> exact ⟨_, hout, rfl, rfl⟩

/-- Witness for the amended C1 at a concrete input. -/
theorem C1_persist_exactly_once_witness :
    ∃ out r, run_task okEnv 722 0 = some out ∧ out.saves = [r] ∧ out.ret = .ok r :=
  C1_persist_exactly_once okEnv 0 rfl rfl (by norm_num [Env.wf, okEnv])

/-- **C3** is false as stated: the early save-and-return paths — failure
to load the job definition, to connect, or to authenticate (lines
261-298) — run before the `finally` block that computes `total_time`, so
the record they persist has `total_time = null`.  Concretely, a run whose
process graph fails to load persists exactly one record with
`status = "failed"` and `total_time = None`. -/
theorem C3_counterexample :
    (run_task envLoadFail 722 0).map
        (fun o => o.saves.map (fun r => (r.status, r.total_time, r.error)))
      = some [("failed", none,
          some "Failed to load process graph: scenario file missing")] := by
  with_unfolding_all rfl

/-- **C3** (amended): `total_time` is present (non-null) in a persisted
record exactly when the run got past authentication into the batch-job
phase; records persisted on load, connect, or authentication failure have
`total_time` null. -/
theorem C3_total_time_iff (env : Env) (fuel : ℕ) (t0 : ℚ) (out : RunOutput)
    (r : RunResults) (hrun : run_task env fuel t0 = some out) (hr : r ∈ out.saves) :
    r.total_time ≠ none ↔ authPassed env := by
  rcases run_task_cases env fuel t0 out hrun with
    ⟨m, hstep, hval⟩ | ⟨m, hstep, hval⟩ | ⟨m, hstep, hval⟩ | ⟨m, hne, hstep, hval⟩ |
    ⟨hap, hjob⟩
  · subst hval
    simp at hr
  · subst hval
    rw [earlySave_saves] at hr
    subst hr
    constructor
    · intro h
      simp [initResults] at h
    · intro hap
      rw [hap.2.2.1] at hstep
      cases hstep
  · subst hval
    rw [earlySave_saves] at hr
    subst hr
    constructor
    · intro h
      simp [initResults] at h
    · intro hap
      rcases hstep with hstep | ⟨hee, hstep⟩
      · rw [hap.2.2.2.1] at hstep
        cases hstep
      · rcases hap.2.2.2.2 with ⟨_, hab⟩ | ⟨hne, _⟩
        · rw [hab] at hstep
          cases hstep
        · exact absurd hee hne
  · subst hval
    rw [earlySave_saves] at hr
    subst hr
    constructor
    · intro h
      simp [initResults] at h
    · intro hap
      rcases hap.2.2.2.2 with ⟨hee, _⟩ | ⟨_, hao⟩
      · exact absurd hee hne
      · rw [hao] at hstep
        cases hstep
  · rcases runJob_cases env fuel t0 _ _ out hjob with
      ⟨m, hcj, hval⟩ | ⟨jid, m, hcj, hsj, hval⟩ | ⟨jid, lo, hcj, hsj, hloop, hrest⟩
    · subst hval
      rw [finishRun_saves] at hr
      subst hr
      exact ⟨fun _ => hap, fun _ => by simp⟩
    · subst hval
      rw [finishRun_saves] at hr
      subst hr
      exact ⟨fun _ => hap, fun _ => by simp⟩
    · rcases hrest with ⟨hfin, ⟨m, hgr, hval⟩ | ⟨m, hgr, hdl, hval⟩ | ⟨hgr, hdl, hval⟩⟩ |
        ⟨hfin, hval⟩ <;> subst hval <;> rw [finishRun_saves] at hr <;> subst hr <;>
        exact ⟨fun _ => hap, fun _ => by simp⟩

/-- Witness for the amended C3 at a concrete input. -/
theorem C3_total_time_iff_witness :
    run_task envQueueRun 722 0 = some outQ ∧ rQ ∈ outQ.saves
      ∧ (rQ.total_time ≠ none ↔ authPassed envQueueRun) := by
  have h1 : run_task envQueueRun 722 0 = some outQ := by with_unfolding_all rfl
  have h2 : rQ ∈ outQ.saves := by simp [outQ]
  exact ⟨h1, h2, C3_total_time_iff envQueueRun 722 0 outQ rQ h1 h2⟩

set_option maxRecDepth 8000 in
/-- **C4** is false as stated: on deadline expiry the loop does exit and
the persist step does run with outcome `failed`, but the `TimeoutError`
detail written inside the loop (line 333) is then *overwritten* by the
post-loop failure handler (line 430), so the persisted error detail is
the generic `"Job ended with status: <last status>"` message, not the
timeout error.  Concretely, a backend that always reports `running`
persists `status = "failed"` with that generic message. -/
theorem C4_counterexample :
    (run_task envNeverDone 722 0).map
        (fun o => o.ret.map (fun r => (r.status, r.error)))
      = some (.ok ("failed", some "Job ended with status: running"))
    ∧ some "Job ended with status: running" ≠ some timeoutMsg := by
  refine ⟨by with_unfolding_all rfl, by decide⟩

/-- **C4** (amended): if the polling loop exits through its timeout check
before observing a terminal status, the loop records the `TimeoutError`
message, the run record's final outcome is `failed`, and the persist step
still runs (exactly one write) — but the persisted error detail is the
post-loop `"Job ended with status: <last observed status>"` message which
overwrites the timeout message. -/
theorem C4_timeout_overwritten (env : Env) (fuel : ℕ) (t0 : ℚ) (out : RunOutput)
    (lo : LoopOut) (hrun : run_task env fuel t0 = some out)
    (hloop : out.loop = some lo) (hexit : lo.exit = .timeout) :
    lo.error = some timeoutMsg
    ∧ ∃ r, out.saves = [r] ∧ out.ret = .ok r ∧ r.status = "failed"
        ∧ r.error = some ("Job ended with status: " ++ pyStr lo.jobStatus) := by
  rcases run_task_cases env fuel t0 out hrun with
    ⟨m, hstep, hval⟩ | ⟨m, hstep, hval⟩ | ⟨m, hstep, hval⟩ | ⟨m, hne, hstep, hval⟩ |
    ⟨hap, hjob⟩
  · subst hval
    cases hloop
  · subst hval
    cases hloop
  · subst hval
    cases hloop
  · subst hval
    cases hloop
  · rcases runJob_cases env fuel t0 _ _ out hjob with
      ⟨m, hcj, hval⟩ | ⟨jid, m, hcj, hsj, hval⟩ | ⟨jid, lo', hcj, hsj, hloop', hrest⟩
    · subst hval
      cases hloop
    · subst hval
      cases hloop
    · have hspec := pollLoop_exit_spec env
        (t0 + env.dLoad + env.dConnect + env.dAuth + env.dCreate) fuel _ lo' hloop'
        (Or.inl rfl)
      have hne_term : lo.exit ≠ .terminal := by
        rw [hexit]
        intro hc
        cases hc
      rcases hrest with ⟨hfin, hsub⟩ | ⟨hfin, hval⟩
      · -- the finished branch is impossible on a timeout exit
        exfalso
        have hlo : lo' = lo := by
          rcases hsub with ⟨m, _, hval⟩ | ⟨m, _, _, hval⟩ | ⟨_, _, hval⟩ <;>
            (subst hval; exact Option.some.inj hloop)
        subst hlo
        rcases hspec.2 hne_term with hnone | ⟨s, hs, hterm⟩
        · rw [hfin] at hnone
          cases hnone
        · rw [hfin] at hs
          have hsfin : s = "finished" := (Option.some.inj hs).symm
          rw [hsfin] at hterm
          exact absurd hterm (by decide)
      · subst hval
        have hlo : lo' = lo := Option.some.inj hloop
        subst hlo
        exact ⟨hspec.1 hexit, _, rfl, rfl, rfl, rfl⟩

set_option maxRecDepth 8000 in
/-- Witness for the amended C4 at a concrete input (a backend that always
reports `running`). -/
theorem C4_timeout_overwritten_witness :
    ∃ out lo, run_task envNeverDone 722 0 = some out ∧ out.loop = some lo
      ∧ lo.exit = .timeout ∧ lo.error = some timeoutMsg
      ∧ ∃ r, out.saves = [r] ∧ out.ret = .ok r ∧ r.status = "failed"
          ∧ r.error = some ("Job ended with status: " ++ pyStr lo.jobStatus) := by
  obtain ⟨out, hout⟩ := run_task_total envNeverDone 0
    (by norm_num [Env.wf, envNeverDone, okEnv])
  have hexit : out.loop.map LoopOut.exit = some LoopExit.timeout := by
    have hall : (run_task envNeverDone 722 0).map (fun o => o.loop.map LoopOut.exit)
        = some (some LoopExit.timeout) := by
      with_unfolding_all rfl
    rw [hout] at hall
    exact Option.some.inj hall
  obtain ⟨lo, hlo, hexit'⟩ : ∃ lo, out.loop = some lo ∧ lo.exit = .timeout := by
    cases hl : out.loop with
    | none =>
      rw [hl] at hexit
      cases hexit
    | some lo =>
      rw [hl] at hexit
      exact ⟨lo, rfl, Option.some.inj hexit⟩
  have h := C4_timeout_overwritten envNeverDone 722 0 out lo hout hlo hexit'
  exact ⟨out, lo, hout, hlo, hexit', h.1, h.2⟩

/-- **C6** (confirmed): in every persisted record, `queue_time` equals
`timestamp(running) − timestamp(queued)` exactly when both keys exist in
the status history and is null otherwise, and `processing_time` equals
`timestamp(finished) − timestamp(running)` under the same rule — never
zero-filled when a boundary status was not observed. -/
theorem C6_derived_times (env : Env) (fuel : ℕ) (t0 : ℚ) (out : RunOutput)
    (r : RunResults) (hrun : run_task env fuel t0 = some out) (hr : r ∈ out.saves) :
    r.queue_time
        = (match List.lookup "queued" r.job_status_history,
                 List.lookup "running" r.job_status_history with
           | some tq, some tr => some (tr - tq)
           | _, _ => none)
    ∧ r.processing_time
        = (match List.lookup "running" r.job_status_history,
                 List.lookup "finished" r.job_status_history with
           | some tr, some tf => some (tf - tr)
           | _, _ => none) := by
  rcases run_task_cases env fuel t0 out hrun with
    ⟨m, hstep, hval⟩ | ⟨m, hstep, hval⟩ | ⟨m, hstep, hval⟩ | ⟨m, hne, hstep, hval⟩ |
    ⟨hap, hjob⟩
  · subst hval
    simp at hr
  · subst hval
    rw [earlySave_saves] at hr
    subst hr
    exact ⟨rfl, rfl⟩
  · subst hval
    rw [earlySave_saves] at hr
    subst hr
    exact ⟨rfl, rfl⟩
  · subst hval
    rw [earlySave_saves] at hr
    subst hr
    exact ⟨rfl, rfl⟩
  · rcases runJob_cases env fuel t0 _ _ out hjob with
      ⟨m, hcj, hval⟩ | ⟨jid, m, hcj, hsj, hval⟩ | ⟨jid, lo, hcj, hsj, hloop, hrest⟩
    · subst hval
      rw [finishRun_saves] at hr
      subst hr
      exact ⟨rfl, rfl⟩
    · subst hval
      rw [finishRun_saves] at hr
      subst hr
      exact ⟨rfl, rfl⟩
    · rcases hrest with ⟨hfin, ⟨m, hgr, hval⟩ | ⟨m, hgr, hdl, hval⟩ | ⟨hgr, hdl, hval⟩⟩ |
        ⟨hfin, hval⟩ <;> subst hval <;> rw [finishRun_saves] at hr <;> subst hr <;>
        exact ⟨rfl, rfl⟩

/-- Witness for C6 at a concrete input: a `queued → running → finished`
run where `queue_time = 7.5` s and `processing_time = 11.25` s. -/
theorem C6_derived_times_witness :
    run_task envQueueRun 722 0 = some outQ ∧ rQ ∈ outQ.saves
      ∧ (rQ.queue_time
            = (match List.lookup "queued" rQ.job_status_history,
                     List.lookup "running" rQ.job_status_history with
               | some tq, some tr => some (tr - tq)
               | _, _ => none)
        ∧ rQ.processing_time
            = (match List.lookup "running" rQ.job_status_history,
                     List.lookup "finished" rQ.job_status_history with
               | some tr, some tf => some (tf - tr)
               | _, _ => none))
      ∧ rQ.queue_time = some (15 / 2) ∧ rQ.processing_time = some (45 / 4) := by
  have h1 : run_task envQueueRun 722 0 = some outQ := by with_unfolding_all rfl
  have h2 : rQ ∈ outQ.saves := by simp [outQ]
  exact ⟨h1, h2, C6_derived_times envQueueRun 722 0 outQ rQ h1 h2, rfl, rfl⟩

/-- The failure happened before `create_job` returned an id: one of
load, connect, authenticate, or submit raised. -/
def failedBeforeSubmit (env : Env) : Prop :=
  (∃ m, env.loadGraph = .exn m) ∨ (∃ m, env.connect = .exn m)
    ∨ (env.apiUrl = eeUrl ∧ ∃ m, env.authBasic = .exn m)
    ∨ (env.apiUrl ≠ eeUrl ∧ ∃ m, env.authOidc = .exn m)
    ∨ (∃ m, env.createJob = .exn m)

/-- **C7** (confirmed).  First half: an error raised during
authentication or submission short-circuits the run — the loop is never
entered (no polling attempted), the persisted record has
`status = "failed"` with a non-null error, `results.json` is written
exactly once, and `job_id` is null.  Second half: in every completed run,
a persisted `job_id` of null occurs only when the final outcome is
`failed` and the failure happened before submission returned an id. -/
theorem C7_shortcircuit_and_jobid :
    (∀ (env : Env) (fuel : ℕ) (t0 : ℚ),
      env.mkdirs = .ok () → env.copyDef = .ok () → env.loadGraph = .ok () →
      env.connect = .ok () →
      ((env.apiUrl = eeUrl ∧ ∃ m, env.authBasic = .exn m)
        ∨ (env.apiUrl ≠ eeUrl ∧ ∃ m, env.authOidc = .exn m)
        ∨ (((env.apiUrl = eeUrl ∧ env.authBasic = .ok ())
              ∨ (env.apiUrl ≠ eeUrl ∧ env.authOidc = .ok ()))
            ∧ ∃ m, env.createJob = .exn m)) →
      ∃ r, run_task env fuel t0 = some { ret := .ok r, saves := [r], loop := none }
        ∧ r.status = "failed" ∧ r.error ≠ none ∧ r.job_id = none)
    ∧ (∀ (env : Env) (fuel : ℕ) (t0 : ℚ) (out : RunOutput) (r : RunResults),
        run_task env fuel t0 = some out → out.ret = .ok r → r.job_id = none →
        r.status = "failed" ∧ failedBeforeSubmit env) := by
  constructor
  · intro env fuel t0 hmk hcp hlg hc hfail
    unfold run_task
    rw [hmk, hcp, hlg]
    dsimp only
    rcases hfail with ⟨hee, m, hab⟩ | ⟨hne, m, hao⟩ | ⟨hauth, m, hcj⟩
    · rw [if_pos hee, hc, hab]
      exact ⟨_, rfl, rfl, fun hcon => Option.noConfusion hcon, rfl⟩
    · rw [if_neg hne, hc, hao]
      exact ⟨_, rfl, rfl, fun hcon => Option.noConfusion hcon, rfl⟩
    · rcases hauth with ⟨hee, hab⟩ | ⟨hne, hao⟩
      · rw [if_pos hee, hc, hab]
        unfold runJob
        rw [hcj]
        exact ⟨_, rfl, rfl, fun hcon => Option.noConfusion hcon, rfl⟩
      · rw [if_neg hne, hc, hao]
        unfold runJob
        rw [hcj]
        exact ⟨_, rfl, rfl, fun hcon => Option.noConfusion hcon, rfl⟩
  · intro env fuel t0 out r hrun hret hjid
    rcases run_task_cases env fuel t0 out hrun with
      ⟨m, hstep, hval⟩ | ⟨m, hstep, hval⟩ | ⟨m, hstep, hval⟩ | ⟨m, hne, hstep, hval⟩ |
      ⟨hap, hjob⟩
    · subst hval
      cases hret
    · subst hval
      have hr : r = _ := (Except.ok.inj hret).symm
      subst hr
      exact ⟨rfl, Or.inl ⟨m, hstep⟩⟩
    · subst hval
      have hr : r = _ := (Except.ok.inj hret).symm
      subst hr
      refine ⟨rfl, ?_⟩
      rcases hstep with hstep | ⟨hee, hstep⟩
      · exact Or.inr (Or.inl ⟨m, hstep⟩)
      · exact Or.inr (Or.inr (Or.inl ⟨hee, m, hstep⟩))
    · subst hval
      have hr : r = _ := (Except.ok.inj hret).symm
      subst hr
      exact ⟨rfl, Or.inr (Or.inr (Or.inr (Or.inl ⟨hne, m, hstep⟩)))⟩
    · rcases runJob_cases env fuel t0 _ _ out hjob with
        ⟨m, hcj, hval⟩ | ⟨jid, m, hcj, hsj, hval⟩ | ⟨jid, lo, hcj, hsj, hloop, hrest⟩
      · subst hval
        have hr : r = _ := (Except.ok.inj hret).symm
        subst hr
        exact ⟨rfl, Or.inr (Or.inr (Or.inr (Or.inr ⟨m, hcj⟩)))⟩
      · subst hval
        have hr : r = _ := (Except.ok.inj hret).symm
        subst hr
        cases hjid
      · exfalso
        rcases hrest with ⟨hfin, ⟨m, hgr, hval⟩ | ⟨m, hgr, hdl, hval⟩ | ⟨hgr, hdl, hval⟩⟩ |
          ⟨hfin, hval⟩ <;> subst hval <;>
          (have hr : r = _ := (Except.ok.inj hret).symm
           subst hr
           cases hjid)

/-- Witness for C7 at a concrete input (OIDC authentication raises). -/
theorem C7_shortcircuit_and_jobid_witness :
    ∃ r, run_task envAuthFail 722 0
        = some { ret := .ok r, saves := [r], loop := none }
      ∧ r.status = "failed" ∧ r.error ≠ none ∧ r.job_id = none :=
  C7_shortcircuit_and_jobid.1 envAuthFail 722 0 rfl rfl rfl rfl
    (Or.inr (Or.inl ⟨by decide, "bad credentials", rfl⟩))

/-- **C9** is false as stated: `start_job_time` (line 314-315) stores the
absolute wall-clock instant at which the job was started — not a
duration — so `total_time` is far smaller than it.  Concretely, a run
started at wall-clock 1000000 s persists `start_job_time = 1000001` and
`total_time = 6`. -/
theorem C9_counterexample :
    (run_task okEnv 722 1000000).map
        (fun o => o.ret.map (fun r => (r.start_job_time, r.total_time)))
      = some (.ok (some 1000001, some 6))
    ∧ ¬((1000001 : ℚ) ≤ 6) := by
  refine ⟨by with_unfolding_all rfl, by norm_num⟩

/-- **C9** (amended): in every persisted record with non-negative phase
durations, `total_time` is non-negative and dominates every recorded
*duration* field — `submit_time`, `job_execution_time`, and
`download_time` — whenever those are present.  `start_job_time` is
excluded: it is an absolute timestamp, not a duration (see the
counterexample). -/
theorem C9_total_dominates (env : Env) (fuel : ℕ) (t0 : ℚ) (out : RunOutput)
    (r : RunResults) (T : ℚ) (hwf : env.wf) (hrun : run_task env fuel t0 = some out)
    (hr : r ∈ out.saves) (hT : r.total_time = some T) :
    0 ≤ T ∧ (∀ x, r.submit_time = some x → x ≤ T)
      ∧ (∀ x, r.job_execution_time = some x → x ≤ T)
      ∧ (∀ x, r.download_time = some x → x ≤ T) := by
  obtain ⟨h1, h2, h3, h4, h5, h6, h7, h8⟩ := hwf
  rcases run_task_cases env fuel t0 out hrun with
    ⟨m, hstep, hval⟩ | ⟨m, hstep, hval⟩ | ⟨m, hstep, hval⟩ | ⟨m, hne, hstep, hval⟩ |
    ⟨hap, hjob⟩
  · subst hval
    simp at hr
  · subst hval
    rw [earlySave_saves] at hr
    subst hr
    simp [initResults] at hT
  · subst hval
    rw [earlySave_saves] at hr
    subst hr
    simp [initResults] at hT
  · subst hval
    rw [earlySave_saves] at hr
    subst hr
    simp [initResults] at hT
  · rcases runJob_cases env fuel t0 _ _ out hjob with
      ⟨m, hcj, hval⟩ | ⟨jid, m, hcj, hsj, hval⟩ | ⟨jid, lo, hcj, hsj, hloop, hrest⟩
    · subst hval
      rw [finishRun_saves] at hr
      subst hr
      have hTv := Option.some.inj hT
      refine ⟨by rw [← hTv]; simp [initResults]; linarith, ?_, ?_, ?_⟩ <;>
        (intro x hx; simp [initResults] at hx)
    · subst hval
      rw [finishRun_saves] at hr
      subst hr
      have hTv := Option.some.inj hT
      refine ⟨by rw [← hTv]; simp [initResults, submitRecord]; linarith, ?_, ?_, ?_⟩
      · intro x hx
        have hxv := Option.some.inj hx
        rw [← hTv, ← hxv]
        simp [initResults, submitRecord]
        linarith
      · intro x hx
        simp [initResults, submitRecord] at hx
      · intro x hx
        simp [initResults, submitRecord] at hx
    · have hmono := pollLoop_t_mono env
        (t0 + env.dLoad + env.dConnect + env.dAuth + env.dCreate) fuel _ lo hloop
        (by norm_num [initLoopState])
      simp only [initLoopState] at hmono
      rcases hrest with ⟨hfin, ⟨m, hgr, hval⟩ | ⟨m, hgr, hdl, hval⟩ | ⟨hgr, hdl, hval⟩⟩ |
        ⟨hfin, hval⟩ <;> subst hval <;> rw [finishRun_saves] at hr <;> subst hr <;>
        (have hTv := Option.some.inj hT) <;>
        refine ⟨by rw [← hTv]; linarith, ?_, ?_, ?_⟩
      · intro x hx
        have hxv := Option.some.inj hx
        rw [← hTv, ← hxv]
        linarith
      · intro x hx
        have hxv := Option.some.inj hx
        rw [← hTv, ← hxv]
        linarith
      · intro x hx
        simp [initResults, submitRecord, postLoopRecord] at hx
      · intro x hx
        have hxv := Option.some.inj hx
        rw [← hTv, ← hxv]
        linarith
      · intro x hx
        have hxv := Option.some.inj hx
        rw [← hTv, ← hxv]
        linarith
      · intro x hx
        simp [initResults, submitRecord, postLoopRecord] at hx
      · intro x hx
        have hxv := Option.some.inj hx
        rw [← hTv, ← hxv]
        linarith
      · intro x hx
        have hxv := Option.some.inj hx
        rw [← hTv, ← hxv]
        linarith
      · intro x hx
        have hxv := Option.some.inj hx
        rw [← hTv, ← hxv]
        linarith
      · intro x hx
        have hxv := Option.some.inj hx
        rw [← hTv, ← hxv]
        linarith
      · intro x hx
        have hxv := Option.some.inj hx
        rw [← hTv, ← hxv]
        linarith
      · intro x hx
        simp [initResults, submitRecord, postLoopRecord] at hx

/-- Witness for the amended C9 at a concrete input. -/
theorem C9_total_dominates_witness :
    run_task envQueueRun 722 0 = some outQ ∧ rQ ∈ outQ.saves
      ∧ rQ.total_time = some (75 / 4)
      ∧ (0 ≤ (75 / 4 : ℚ) ∧ (∀ x, rQ.submit_time = some x → x ≤ 75 / 4)
          ∧ (∀ x, rQ.job_execution_time = some x → x ≤ 75 / 4)
          ∧ (∀ x, rQ.download_time = some x → x ≤ 75 / 4)) := by
  have h1 : run_task envQueueRun 722 0 = some outQ := by with_unfolding_all rfl
  have h2 : rQ ∈ outQ.saves := by simp [outQ]
  exact ⟨h1, h2, rfl, C9_total_dominates envQueueRun 722 0 outQ rQ (75 / 4)
    (by norm_num [Env.wf, envQueueRun, okEnv]) h1 h2 rfl⟩

/-- **C10** (confirmed): every persisted record's `status` is `"success"`
or `"failed"` (it is initialized to `"failed"` and assigned `"success"`
only after `download_files` returns, line 419), and a persisted
`"success"` implies the fetch and download steps both completed, the job
status was `finished`, and `download_time` was recorded. -/
theorem C10_final_outcome (env : Env) (fuel : ℕ) (t0 : ℚ) (out : RunOutput)
    (r : RunResults) (hrun : run_task env fuel t0 = some out) (hr : r ∈ out.saves) :
    (r.status = "success" ∨ r.status = "failed")
    ∧ (r.status = "success" →
        env.getResults = .ok () ∧ env.download = .ok ()
          ∧ r.job_status = some "finished" ∧ r.download_time ≠ none) := by
  rcases run_task_cases env fuel t0 out hrun with
    ⟨m, hstep, hval⟩ | ⟨m, hstep, hval⟩ | ⟨m, hstep, hval⟩ | ⟨m, hne, hstep, hval⟩ |
    ⟨hap, hjob⟩
  · subst hval
    simp at hr
  · subst hval
    rw [earlySave_saves] at hr
    subst hr
    exact ⟨Or.inr rfl, fun hs => by simp [initResults] at hs⟩
  · subst hval
    rw [earlySave_saves] at hr
    subst hr
    exact ⟨Or.inr rfl, fun hs => by simp [initResults] at hs⟩
  · subst hval
    rw [earlySave_saves] at hr
    subst hr
    exact ⟨Or.inr rfl, fun hs => by simp [initResults] at hs⟩
  · rcases runJob_cases env fuel t0 _ _ out hjob with
      ⟨m, hcj, hval⟩ | ⟨jid, m, hcj, hsj, hval⟩ | ⟨jid, lo, hcj, hsj, hloop, hrest⟩
    · subst hval
      rw [finishRun_saves] at hr
      subst hr
      exact ⟨Or.inr rfl, fun hs => by simp [initResults] at hs⟩
    · subst hval
      rw [finishRun_saves] at hr
      subst hr
      exact ⟨Or.inr rfl, fun hs => by simp [initResults, submitRecord] at hs⟩
    · rcases hrest with ⟨hfin, ⟨m, hgr, hval⟩ | ⟨m, hgr, hdl, hval⟩ | ⟨hgr, hdl, hval⟩⟩ |
        ⟨hfin, hval⟩
      · subst hval
        rw [finishRun_saves] at hr
        subst hr
        exact ⟨Or.inr rfl,
          fun hs => by simp [initResults, submitRecord, postLoopRecord] at hs⟩
      · subst hval
        rw [finishRun_saves] at hr
        subst hr
        exact ⟨Or.inr rfl,
          fun hs => by simp [initResults, submitRecord, postLoopRecord] at hs⟩
      · subst hval
        rw [finishRun_saves] at hr
        subst hr
        refine ⟨Or.inl rfl, fun _ => ⟨hgr, hdl, ?_, by simp⟩⟩
        show lo.jobStatus = some "finished"
        exact hfin
      · subst hval
        rw [finishRun_saves] at hr
        subst hr
        exact ⟨Or.inr rfl,
          fun hs => by simp [initResults, submitRecord, postLoopRecord] at hs⟩

/-- Witness for C10 at a concrete input. -/
theorem C10_final_outcome_witness :
    run_task envQueueRun 722 0 = some outQ ∧ rQ ∈ outQ.saves
      ∧ ((rQ.status = "success" ∨ rQ.status = "failed")
        ∧ (rQ.status = "success" →
            envQueueRun.getResults = .ok () ∧ envQueueRun.download = .ok ()
              ∧ rQ.job_status = some "finished" ∧ rQ.download_time ≠ none)) := by
  have h1 : run_task envQueueRun 722 0 = some outQ := by with_unfolding_all rfl
  have h2 : rQ ∈ outQ.saves := by simp [outQ]
  exact ⟨h1, h2, C10_final_outcome envQueueRun 722 0 outQ rQ h1 h2⟩

end OpenEOTest
